import Mathlib

/-!
Shallow embedding of the ivc-kx-webhook pipeline: the Shopify signature
verifier and line-props extractor (`src/services/shopify.ts`), the KornitX
payload builder (`src/services/kornitx.ts`), the retry executor
(`src/services/retry.ts`), and the SQS worker handler
(`functions/worker/handler.ts`).  JavaScript strings become `String`,
possibly-`undefined` values become `Option`, JS objects used as string maps
become association lists, and functions that can throw return `Except`.
External platform primitives (node `crypto`, `Date`, `Number()`) are
parameters of the embedding.
-/

namespace IvcKx

/-! ## JavaScript value helpers -/

/-- JavaScript truthiness of a possibly-undefined string: `undefined`, `null`
and `""` are falsy. -/
def truthyStr : Option String → Bool
  | none => false
  | some s => s != ""

/-- JavaScript `a || b` for possibly-undefined strings: `a` when truthy,
otherwise `b` (which is kept as-is, even when `""`). -/
def jsOr (a b : Option String) : Option String :=
  if truthyStr a then a else b

/-- JavaScript `a || undefined`: `a` when truthy, otherwise `undefined`. -/
def jsOrUndef (a : Option String) : Option String :=
  if truthyStr a then a else none

/-- ASCII lowering of one character, the effect of JS `toLowerCase()` on the
character data this system handles. -/
def jsCharLower (c : Char) : Char :=
  if 'A' ≤ c && c ≤ 'Z' then Char.ofNat (c.toNat + 32) else c

/-- JS `s.toLowerCase()`. -/
def jsToLower (s : String) : String :=
  ⟨s.data.map jsCharLower⟩

/-- JS whitespace for `trim()` (the whitespace characters that occur here). -/
def jsIsWs (c : Char) : Bool :=
  c == ' ' || c == '\t' || c == '\n' || c == '\r' || c == '\x0b' || c == '\x0c'

/-- JS `s.trim()`: strip whitespace from both ends. -/
def jsTrim (s : String) : String :=
  ⟨((s.data.dropWhile jsIsWs).reverse.dropWhile jsIsWs).reverse⟩

/-- JS `s.startsWith('_')`. -/
def jsStartsWithUnderscore (s : String) : Bool :=
  match s.data with
  | [] => false
  | c :: _ => c == '_'

/-! ## JS objects as string maps (association lists) -/

/-- A JS object used as a string→string map, in key insertion order. -/
abbrev KV := List (String × String)

/-- JS object read `obj[k]`: objects have unique keys, so the first entry with
the key is the object's single slot for it. -/
def kvGet (kv : KV) (k : String) : Option String :=
  (kv.find? (fun p => p.1 == k)).map (·.2)

/-- JS object assignment `obj[k] = v`: update in place when the key exists,
otherwise append a new entry. -/
def kvSet (kv : KV) (k v : String) : KV :=
  if kv.any (fun p => p.1 == k) then
    kv.map (fun p => if p.1 == k then (k, v) else p)
  else kv ++ [(k, v)]

/-! ## Data model (`src/types.ts`) -/

/-- One `{ name, value }` property of a Shopify line item. -/
structure LineProp where
  name : String
  value : String
deriving Repr, DecidableEq

/-- `ShopifyOrder['line_items'][number]`.  `quantity` is `Option Int` because
the worker receives the line as `any` and the builder guards absence with
`li.quantity || 1`. -/
structure LineItem where
  id : Nat
  quantity : Option Int
  title : String
  sku : Option String
  properties : List LineProp
deriving Repr, DecidableEq

/-- `ShopifyOrder['customer']`. -/
structure Customer where
  first_name : Option String
  last_name : Option String
  email : Option String
  phone : Option String
deriving Repr, DecidableEq

/-- `ShopifyOrder['shipping_address']`. -/
structure ShippingAddress where
  company : Option String
  address1 : Option String
  address2 : Option String
  city : Option String
  province : Option String
  zip : Option String
  country_code : Option String
  name : Option String
  phone : Option String
deriving Repr, DecidableEq

/-- `ShopifyOrder` (`src/types.ts`); only the fields the pipeline reads. -/
structure ShopifyOrder where
  id : Nat
  name : String
  email : Option String
  customer : Option Customer
  processed_at : Option String
  created_at : Option String
  line_items : List LineItem
  shipping_address : Option ShippingAddress
deriving Repr, DecidableEq

/-! ## Signature verifier (`src/services/shopify.ts`, `verifyShopifyHmac`) -/

/-- node `crypto.timingSafeEqual`: throws a `RangeError` when the two buffers
have different byte lengths, otherwise compares them. -/
def timingSafeEqual (a b : List Char) : Except String Bool :=
  if a.length = b.length then .ok (a == b)
  else .error "RangeError: Input buffers must have the same byte length"

/-- `verifyShopifyHmac`, parametric in the HMAC-SHA256-base64 digest function
`hmac` (node `crypto`, external; its output for SHA-256 is always a
44-character base64 string).  The `Except` carries the exception that
`timingSafeEqual` can throw; `.ok` is the function's boolean return. -/
def verifyShopifyHmac (hmac : List Nat → String → String) (rawBody : List Nat)
    (hmacHeader : Option String) (secret : String) : Except String Bool :=
  if !truthyStr hmacHeader then .ok false
  else
    let digest := hmac rawBody secret
    timingSafeEqual digest.data (hmacHeader.getD "").data

/-! ## Line-props extractor (`src/services/shopify.ts`, line-props module) -/

/-- `extractProps`: collapse a property list into a JS object (later property
with the same exact name overwrites the earlier slot). -/
def extractProps (props : Option (List LineProp)) : KV :=
  (props.getD []).foldl (fun acc p => kvSet acc p.name p.value) []

/-- The `lowerToReal` object built inside `findFirstKey`: for each key `k` of
`obj` in order, `lowerToReal[k.toLowerCase()] = k`; a later key with the same
lowercase spelling overwrites the entry. -/
def lowerToReal (kv : KV) : KV :=
  kv.foldl (fun acc p => kvSet acc (jsToLower p.1) p.1) []

/-- The candidate loop of `findFirstKey`: for each candidate alias in order,
look up the real key recorded for its lowercase form; return the object's
value at that key when both the key name and the value are truthy. -/
def findFirstLoop (obj ltr : KV) : List String → Option String
  | [] => none
  | c :: rest =>
    match kvGet ltr (jsToLower c) with
    | some real =>
      if real != "" then
        match kvGet obj real with
        | some v => if v != "" then some v else findFirstLoop obj ltr rest
        | none => findFirstLoop obj ltr rest
      else findFirstLoop obj ltr rest
    | none => findFirstLoop obj ltr rest

/-- `findFirstKey(obj, candidates)`. -/
def findFirstKey (obj : KV) (candidates : List String) : Option String :=
  if candidates.isEmpty then none
  else findFirstLoop obj (lowerToReal obj) candidates

/-- Normalized per-client alias configuration: the output of the source's
`normalizeKeyCfg` (whose `toArray` JSON-or-comma parsing of the raw client
config is a JS/JSON platform primitive applied before this point). -/
structure KeyCfg where
  topKeys : List String
  middleKeys : List String
  bottomKeys : List String

/-- `DesignBits` (`src/services/kornitx.ts`). -/
structure DesignBits where
  top : Option String
  middle : Option String
  bottom : Option String
  printJobId : Option String
  thumb : Option String
deriving Repr, DecidableEq

/-- `getDesignBits(obj, cfg)`: slot values via `findFirstKey` over the
configured aliases with `??`-fallback to one fixed default name per slot;
`printJobId` and `thumb` via `||`-chains over fixed metadata names. -/
def getDesignBits (obj : KV) (cfg : KeyCfg) : DesignBits :=
  { top := (findFirstKey obj cfg.topKeys).orElse fun _ => kvGet obj "Top line"
    middle := (findFirstKey obj cfg.middleKeys).orElse fun _ => kvGet obj "Middle line"
    bottom := (findFirstKey obj cfg.bottomKeys).orElse fun _ => kvGet obj "Bottom line"
    printJobId :=
      jsOr (jsOr (kvGet obj "_printJobId") (kvGet obj "_printjobid")) (kvGet obj "print_job_ref")
    thumb :=
      jsOr (jsOr (kvGet obj "_thumb") (kvGet obj "_thumbnail")) (kvGet obj "thumbnail") }

/-! ## KornitX payload builder (`src/services/kornitx.ts`) -/

/-- External JavaScript primitives that the builder delegates to: the
`Date`-based body of `formatUtc` (parse the timestamp, `none` when
`new Date(ts)` is invalid, else render `YYYY-MM-DD HH:MM:SS` UTC), and the
`Number()` coercion used on `companyRefId`.  Left abstract, as parameters. -/
structure JsPrims where
  formatUtcDate : String → Option String
  toNumber : String → Int

/-- `formatUtc(ts)`: `undefined` for a falsy input, otherwise the `Date`-based
formatting (which is itself `none` on an unparseable timestamp). -/
def formatUtc (js : JsPrims) (ts : Option String) : Option String :=
  if !truthyStr ts then none else js.formatUtcDate (ts.getD "")

/-- `KxOrderItem` (`src/services/kornitx.ts`): `type` 2 = print job,
5 = textual product. -/
structure KxOrderItem where
  external_ref : String
  quantity : Int
  type : Nat
  print_job_ref : Option String
  sku : Option String
  description : Option String
  textual_product_id : Option Nat
  attributes : List LineProp
deriving Repr, DecidableEq

/-- `KxOrderPayload` (`src/services/kornitx.ts`). -/
structure KxOrderPayload where
  external_ref : String
  company_ref_id : Int
  sale_datetime : Option String
  customer_name : Option String
  customer_email : Option String
  customer_telephone : Option String
  shipping_address_1 : Option String
  shipping_address_2 : Option String
  shipping_address_3 : Option String
  shipping_address_4 : Option String
  shipping_address_5 : Option String
  shipping_postcode : Option String
  shipping_country_code : Option String
  items : List KxOrderItem
deriving Repr, DecidableEq

/-- A candidate: a line item paired with its design bits, as enqueued by the
API handler and consumed by the worker and the builder. -/
structure Candidate where
  li : LineItem
  bits : DesignBits
deriving Repr, DecidableEq

/-- The per-property test shared by `hasUserFacingProps` and the filter inside
`passthroughAttributes`: non-empty trimmed name not starting with `_`, and
non-empty trimmed value. -/
def userFacing (p : LineProp) : Bool :=
  jsTrim p.name != "" && jsTrim p.value != "" && !jsStartsWithUnderscore (jsTrim p.name)

/-- `hasUserFacingProps(li)` (identical in `src/services/kornitx.ts` and
`functions/worker/handler.ts`): some property passes the `userFacing` test. -/
def hasUserFacingProps (li : LineItem) : Bool :=
  li.properties.any userFacing

/-- One step of the property loop of `passthroughAttributes`: the accumulator
is `(attrs, seen)`; skip empty-named, empty-valued and `_`-prefixed properties, then
deduplicate case-insensitively by name (first occurrence wins). -/
def ptStep (acc : List LineProp × List String) (p : LineProp) :
    List LineProp × List String :=
  let name := jsTrim p.name
  let value := jsTrim p.value
  if name == "" || value == "" then acc
  else if jsStartsWithUnderscore name then acc
  else if acc.2.contains (jsToLower name) then acc
  else (acc.1 ++ [⟨name, value⟩], acc.2 ++ [jsToLower name])

/-- `passthroughAttributes(li, thumb)`: the filtered, deduplicated non-private
properties, plus one `_thumb` attribute appended when `thumb` is truthy and
`_thumb` was not already seen. -/
def passthroughAttributes (li : LineItem) (thumb : Option String) :
    List LineProp :=
  let st := li.properties.foldl ptStep ([], [])
  if truthyStr thumb && !st.2.contains "_thumb" then
    st.1 ++ [⟨"_thumb", thumb.getD ""⟩]
  else st.1

/-- `attributesForType2(thumb)`: only the `_thumb` attribute, when truthy. -/
def attributesForType2 (thumb : Option String) : List LineProp :=
  if truthyStr thumb then [⟨"_thumb", thumb.getD ""⟩] else []

/-- The SKU→product-id mapping (`getProductIdsForSkus` result): lowercased
normalized SKU keys to KX product ids. -/
abbrev SkuMap := List (String × Nat)

/-- Read of the SKU map, `skuToProductId[normSku]`. -/
def skuLookup (m : SkuMap) (k : String) : Option Nat :=
  (m.find? (fun p => p.1 == k)).map (·.2)

/-- `Number(li.quantity || 1)`: JS `||` replaces both an absent and a zero
(falsy) quantity by the default 1; every other value passes through. -/
def jsQuantity : Option Int → Int
  | none => 1
  | some v => if v = 0 then 1 else v

/-- One iteration of the `for (const { li, bits } of candidates)` loop in
`buildKxOrderPayload`: each candidate contributes zero items or one item. -/
def kxItemsForCandidate (skuToProductId : Option SkuMap)
    (defaultProductId : Option Nat) (c : Candidate) : List KxOrderItem :=
  let normSku := jsToLower (jsTrim (c.li.sku.getD ""))
  let mappedPid := skuToProductId.bind fun m => skuLookup m normSku
  let textual_product_id := mappedPid.orElse fun _ => defaultProductId
  if truthyStr c.bits.printJobId then
    [{ external_ref := toString c.li.id
       quantity := jsQuantity c.li.quantity
       type := 2
       print_job_ref := some (c.bits.printJobId.getD "")
       sku := c.li.sku
       description := some c.li.title
       textual_product_id := textual_product_id
       attributes := attributesForType2 c.bits.thumb }]
  else if hasUserFacingProps c.li then
    let attributes := passthroughAttributes c.li c.bits.thumb
    if attributes.length > 0 then
      [{ external_ref := toString c.li.id
         quantity := jsQuantity c.li.quantity
         type := 5
         print_job_ref := none
         sku := c.li.sku
         description := some c.li.title
         textual_product_id := textual_product_id
         attributes := attributes }]
    else []
  else []

/-- `[first, last].filter(Boolean).join(' ')` over the customer name parts. -/
def joinedCustomerName (c : Option Customer) : String :=
  String.intercalate " "
    ((([c.bind (·.first_name), c.bind (·.last_name)].filterMap id)).filter (· != ""))

/-- `buildKxOrderPayload` (`src/services/kornitx.ts`). -/
def buildKxOrderPayload (js : JsPrims) (order : ShopifyOrder)
    (companyRefId : String) (candidates : List Candidate)
    (skuToProductId : Option SkuMap) (defaultProductId : Option Nat) :
    KxOrderPayload :=
  let ship := order.shipping_address
  { external_ref := if order.name != "" then order.name else toString order.id
    company_ref_id := js.toNumber companyRefId
    sale_datetime := formatUtc js (jsOr order.processed_at order.created_at)
    customer_name :=
      jsOrUndef (jsOr (ship.bind (·.name)) (some (joinedCustomerName order.customer)))
    customer_email := jsOrUndef (jsOr (order.customer.bind (·.email)) order.email)
    customer_telephone :=
      jsOrUndef (jsOr (order.customer.bind (·.phone)) (ship.bind (·.phone)))
    shipping_address_1 := jsOrUndef (ship.bind (·.address1))
    shipping_address_2 := jsOrUndef (ship.bind (·.address2))
    shipping_address_3 := jsOrUndef (ship.bind (·.city))
    shipping_address_4 := jsOrUndef (ship.bind (·.province))
    shipping_address_5 := jsOrUndef (ship.bind (·.company))
    shipping_postcode := jsOrUndef (ship.bind (·.zip))
    shipping_country_code := jsOrUndef (ship.bind (·.country_code))
    items := candidates.flatMap (kxItemsForCandidate skuToProductId defaultProductId) }

/-! ## Retry executor (`src/services/retry.ts`, `withRetry`) -/

/-- The retry loop of `withRetry`, modelled over the sequence of attempt
outcomes `fn attempt` (attempts are 1-indexed; `fn` stands for the successive
results of the wrapped async operation).  `attempt` is the loop counter and
`r` the number of attempts still allowed.  Returns (number of calls made, the
recorded pre-jitter `backoff` delays in order, the overall result);
`.error none` is `throw lastErr` with `lastErr` still `undefined`, reachable
only when the configured attempt count is 0.  Jitter multiplies each recorded
delay by a random factor in [0.5, 1] before sleeping; the values recorded
here are the pre-jitter `backoff` values. -/
def withRetryFrom (fn : Nat → Except ε α) (baseMs maxMs : Nat) :
    Nat → Nat → Nat × List Nat × Except (Option ε) α
  | _, 0 => (0, [], .error none)
  | attempt, r + 1 =>
    match fn attempt with
    | .ok v => (1, [], .ok v)
    | .error e =>
      if r = 0 then (1, [], .error (some e))
      else
        let rest := withRetryFrom fn baseMs maxMs (attempt + 1) r
        (rest.1 + 1, min maxMs (baseMs * 2 ^ (attempt - 1)) :: rest.2.1, rest.2.2)

/-- `withRetry(fn, { attempts, baseMs, maxMs })`. -/
def withRetry (fn : Nat → Except ε α) (attempts baseMs maxMs : Nat) :
    Nat × List Nat × Except (Option ε) α :=
  withRetryFrom fn baseMs maxMs 1 attempts

/-! ## Worker handler (`functions/worker/handler.ts`) -/

/-- The distinct throw sites of the worker handler. -/
inductive WErr (ε : Type) where
  | clientNotFound
  | missingMapping (skus : List String)
  | submitFailed (e : ε)
deriving Repr, DecidableEq

/-- The worker's externally observable side effects, in order. -/
inductive WEffect where
  | submitToKx
  | markProcessed (shopDomain : String) (orderId : Nat) (externalId : String)
deriving Repr, DecidableEq

/-- The worker's external collaborators, as the values they return for one
dequeued message: the idempotency-ledger read (`isProcessed`), the client
lookup (`getClientBySlug`, only null-checked by the worker), the client
secrets (`getClientSecrets`), the bulk SKU→product-id map
(`getProductIdsForSkus`), and the final outcome of the retry-wrapped KornitX
submission. -/
structure WorkerEnv (ε : Type) where
  alreadyProcessed : Bool
  clientFound : Bool
  kxCompanyRefId : String
  skuToProductId : SkuMap
  submitResult : Except ε Unit

/-- One parsed SQS message body, as enqueued by the API handler. -/
structure WorkerMsg where
  slug : String
  shopDomain : String
  secretName : String
  order : ShopifyOrder
  candidates : List Candidate

/-- The worker's personalised subset: candidates with a truthy `printJobId`
(type 2) or user-facing properties (type 5). -/
def personalisedOf (msg : WorkerMsg) : List Candidate :=
  msg.candidates.filter fun c =>
    truthyStr c.bits.printJobId || hasUserFacingProps c.li

/-- The worker's `missing` list: normalized SKUs of personalised candidates
that are non-empty and absent from the resolved map
(`.filter((sku) => sku && skuToProductId[sku] == null)`). -/
def missingOf (env : WorkerEnv ε) (msg : WorkerMsg) : List String :=
  ((personalisedOf msg).map fun p => jsToLower (jsTrim (p.li.sku.getD ""))).filter
    fun sku => sku != "" && (skuLookup env.skuToProductId sku).isNone

/-- `order.name || String(order.id)`, the external id written to the ledger. -/
def extIdOf (order : ShopifyOrder) : String :=
  if order.name != "" then order.name else toString order.id

/-- Processing of one SQS record by the worker handler
(`functions/worker/handler.ts`): `.ok` when the record was handled, `.error`
the error rethrown for SQS redelivery; paired with the side effects
(submission, ledger writes) in order. -/
def processRecord (js : JsPrims) (env : WorkerEnv ε) (msg : WorkerMsg) :
    Except (WErr ε) Unit × List WEffect :=
  if env.alreadyProcessed then (.ok (), [])
  else if !env.clientFound then (.error .clientNotFound, [])
  else if (personalisedOf msg).isEmpty then
    (.ok (), [.markProcessed msg.shopDomain msg.order.id (extIdOf msg.order)])
  else if !(missingOf env msg).isEmpty then
    (.error (.missingMapping (missingOf env msg)), [])
  else if (buildKxOrderPayload js msg.order env.kxCompanyRefId msg.candidates
      (some env.skuToProductId) none).items.isEmpty then
    (.ok (), [.markProcessed msg.shopDomain msg.order.id (extIdOf msg.order)])
  else
    match env.submitResult with
    | .ok _ =>
      (.ok (), [.submitToKx,
                .markProcessed msg.shopDomain msg.order.id (extIdOf msg.order)])
    | .error e => (.error (.submitFailed e), [.submitToKx])

/-! ## Concrete fixtures used to evaluate the embedding on closed inputs -/

/-- A stand-in for one concrete HMAC-SHA256-base64 digest value: like every
SHA-256 digest in base64, it is 44 characters long. -/
def sha256b64Stub : List Nat → String → String :=
  fun _ _ => "01234567890123456789012345678901234567890123"

/-- Trivial instantiation of the external JS primitives. -/
def js0 : JsPrims := { formatUtcDate := fun _ => none, toNumber := fun _ => 0 }

/-- Design bits with every field undefined. -/
def bits0 : DesignBits :=
  { top := none, middle := none, bottom := none, printJobId := none, thumb := none }

/-- A line item with no properties and a null SKU. -/
def liPlain : LineItem :=
  { id := 1, quantity := some 1, title := "T", sku := none, properties := [] }

/-- A personalised (print-job) candidate whose SKU is null. -/
def candPJ : Candidate := { li := liPlain, bits := { bits0 with printJobId := some "PJ" } }

/-- A non-personalised candidate: no print job, no properties. -/
def candPlain : Candidate := { li := liPlain, bits := bits0 }

/-- A print-job candidate with a non-empty, unmapped SKU. -/
def candPJsku : Candidate :=
  { li := { id := 4, quantity := none, title := "T", sku := some "ABC", properties := [] }
    bits := { bits0 with printJobId := some "PJ" } }

/-- A textual candidate: no print job, one user-facing property. -/
def candText : Candidate :=
  { li := { id := 2, quantity := none, title := "T", sku := some "abc"
            properties := [⟨"Top line", "HELLO"⟩] }
    bits := bits0 }

/-- A print-job candidate whose line carries an explicit quantity of 0. -/
def candQty0 : Candidate :=
  { li := { id := 3, quantity := some 0, title := "T", sku := none, properties := [] }
    bits := { bits0 with printJobId := some "PJ" } }

/-- The type-2 item that `candQty0` yields (quantity already defaulted to 1). -/
def itQty0 : KxOrderItem :=
  { external_ref := "3", quantity := 1, type := 2, print_job_ref := some "PJ"
    sku := none, description := some "T", textual_product_id := none, attributes := [] }

/-- A minimal order. -/
def order0 : ShopifyOrder :=
  { id := 1, name := "#1", email := none, customer := none, processed_at := none
    created_at := none, line_items := [liPlain], shipping_address := none }

/-- Worker collaborators: not yet processed, client found, empty SKU map,
submission succeeds. -/
def env0 : WorkerEnv Unit :=
  { alreadyProcessed := false, clientFound := true, kxCompanyRefId := "7"
    skuToProductId := [], submitResult := .ok () }

/-- Same as `env0` but the order is already in the ledger. -/
def envAP : WorkerEnv Unit := { env0 with alreadyProcessed := true }

/-- Collaborators with the SKU `abc` mapped and a failing submission. -/
def envFail : WorkerEnv Unit :=
  { alreadyProcessed := false, clientFound := true, kxCompanyRefId := "7"
    skuToProductId := [("abc", 42)], submitResult := .error () }

/-- A message carrying the null-SKU print-job candidate. -/
def msg0 : WorkerMsg :=
  { slug := "s", shopDomain := "shop", secretName := "sec", order := order0
    candidates := [candPJ] }

/-- A message carrying the unmapped non-empty-SKU print-job candidate. -/
def msg2 : WorkerMsg :=
  { slug := "s", shopDomain := "shop", secretName := "sec", order := order0
    candidates := [candPJsku] }

/-- An operation that fails on every attempt, the attempt number as error. -/
def fnFailN : Nat → Except Nat Unit := fun k => .error k

/-- A declarative reading of `findFirstKey`, used to state C8: scan the alias
list in order; an alias matches when the last property of `obj` whose name has
the same lowercase spelling has a non-empty name and the object's value at
that name is non-empty; the first matching alias's value is returned. -/
def firstAliasValue (obj : KV) (cands : List String) : Option String :=
  cands.findSome? fun c =>
    match obj.reverse.find? (fun p => jsToLower p.1 == jsToLower c) with
    | some q =>
      if q.1 != "" then
        (kvGet obj q.1).bind fun v => if v != "" then some v else none
      else none
    | none => none

/-! ## Theorems -/

/-- C1 (counterexample): with a digest of the usual 44 characters, a malformed
3-character claimed signature makes the verifier throw the `timingSafeEqual`
length error instead of returning `false`. -/
theorem c1_counterexample :
    (sha256b64Stub [] "secret").length = 44 ∧
    verifyShopifyHmac sha256b64Stub [] (some "abc") "secret" =
      .error "RangeError: Input buffers must have the same byte length" := by
  constructor
  · rfl
  · rfl

/-- C1 (amended): for every digest function, raw body, claimed signature and
secret — a missing or empty claimed signature yields `false` without throwing;
a non-empty claimed signature of the same byte length as the digest yields the
constant-time comparison result; a non-empty claimed signature whose byte
length differs from the digest's makes `timingSafeEqual` throw a
`RangeError`. -/
theorem c1_verify_behaviour (hmac : List Nat → String → String)
    (rawBody : List Nat) (hmacHeader : Option String) (secret : String) :
    (truthyStr hmacHeader = false →
      verifyShopifyHmac hmac rawBody hmacHeader secret = .ok false) ∧
    (truthyStr hmacHeader = true →
      (hmac rawBody secret).length = (hmacHeader.getD "").length →
      verifyShopifyHmac hmac rawBody hmacHeader secret =
        .ok ((hmac rawBody secret).data == (hmacHeader.getD "").data)) ∧
    (truthyStr hmacHeader = true →
      (hmac rawBody secret).length ≠ (hmacHeader.getD "").length →
      verifyShopifyHmac hmac rawBody hmacHeader secret =
        .error "RangeError: Input buffers must have the same byte length") := by
  refine ⟨fun h => ?_, fun h hl => ?_, fun h hl => ?_⟩
  · simp [verifyShopifyHmac, h]
  · simp [verifyShopifyHmac, timingSafeEqual, h, hl]
  · simp [verifyShopifyHmac, timingSafeEqual, h, hl]

/-- C1 (witness): the amended behaviour at concrete inputs. -/
theorem c1_witness :
    verifyShopifyHmac sha256b64Stub [] none "s" = .ok false ∧
    verifyShopifyHmac sha256b64Stub [] (some "abc") "s" =
      .error "RangeError: Input buffers must have the same byte length" := by
  constructor
  · exact (c1_verify_behaviour sha256b64Stub [] none "s").1 rfl
  · exact (c1_verify_behaviour sha256b64Stub [] (some "abc") "s").2.2 rfl (by decide)

/-- C9: for every property object and every pair of alias configurations,
`getDesignBits` yields the same `printJobId` and the same `thumb` — these two
fields read only the fixed metadata property names, never the per-client
configuration. -/
theorem c9_printJobId_thumb_config_independent (obj : KV) (cfg cfg' : KeyCfg) :
    (getDesignBits obj cfg).printJobId = (getDesignBits obj cfg').printJobId ∧
    (getDesignBits obj cfg).thumb = (getDesignBits obj cfg').thumb :=
  ⟨rfl, rfl⟩

/-- C4: whenever the (shop domain, order id) is already in the processed-order
ledger, the worker's processing of the message is a no-op: it succeeds with no
submission call and no ledger write. -/
theorem c4_already_processed_noop {ε : Type} (js : JsPrims) (env : WorkerEnv ε)
    (msg : WorkerMsg) (h : env.alreadyProcessed = true) :
    processRecord js env msg = (.ok (), []) := by
  simp [processRecord, h]

/-- C4 (witness): the no-op at a concrete already-processed message. -/
theorem c4_witness : processRecord js0 envAP msg0 = (.ok (), []) :=
  c4_already_processed_noop js0 envAP msg0 rfl

/-- C5: in the payload builder, a candidate with a truthy `printJobId` yields
exactly one type-2 item; a candidate with no truthy `printJobId` and no
user-facing property yields no item; a candidate with both a truthy
`printJobId` and user-facing properties yields only type-2 (never type-5)
items; and the payload's items are exactly the per-candidate contributions in
order. -/
theorem c5_classification (skuMap : Option SkuMap) (dflt : Option Nat)
    (c : Candidate) :
    (truthyStr c.bits.printJobId = true →
      ∃ it, kxItemsForCandidate skuMap dflt c = [it] ∧ it.type = 2) ∧
    (truthyStr c.bits.printJobId = false → hasUserFacingProps c.li = false →
      kxItemsForCandidate skuMap dflt c = []) ∧
    (truthyStr c.bits.printJobId = true → hasUserFacingProps c.li = true →
      ∀ it ∈ kxItemsForCandidate skuMap dflt c, it.type = 2 ∧ it.type ≠ 5) ∧
    (∀ js order cr cands,
      (buildKxOrderPayload js order cr cands skuMap dflt).items =
        cands.flatMap (kxItemsForCandidate skuMap dflt)) := by
  refine ⟨fun h => ?_, fun h h2 => ?_, fun h _ => ?_, fun _ _ _ _ => rfl⟩
  · simp only [kxItemsForCandidate, h, if_true]
    exact ⟨_, rfl, rfl⟩
  · simp only [kxItemsForCandidate, h, h2, Bool.false_eq_true, if_false]
  · intro it hit
    simp only [kxItemsForCandidate, h, if_true, List.mem_singleton] at hit
    subst hit
    refine ⟨rfl, ?_⟩
    show (2 : Nat) ≠ 5
    decide

/-- C5 (witness): the classification at concrete candidates. -/
theorem c5_witness :
    (∃ it, kxItemsForCandidate (some []) none candPJ = [it] ∧ it.type = 2) ∧
    kxItemsForCandidate (some []) none candPlain = [] := by
  constructor
  · exact (c5_classification (some []) none candPJ).1 rfl
  · exact (c5_classification (some []) none candPlain).2.1 rfl rfl

/-- C7 (counterexample): a line with an explicit quantity of 0 — a supplied,
non-positive value — ends up as quantity 1 in the built item: JS `||`
replaces the falsy 0 by the default instead of passing it through. -/
theorem c7_counterexample :
    candQty0.li.quantity = some 0 ∧
    (buildKxOrderPayload js0 order0 "7" [candQty0] (some []) none).items.map
      (·.quantity) = [1] :=
  ⟨rfl, rfl⟩

/-- C7 (amended): in every built item, quantity defaults to 1 when the line's
quantity is absent or zero (both falsy under JS `||`); every non-zero supplied
value — negative values included — passes through unchanged. -/
theorem c7_quantity_default (skuMap : Option SkuMap) (dflt : Option Nat)
    (c : Candidate) (it : KxOrderItem)
    (hmem : it ∈ kxItemsForCandidate skuMap dflt c) :
    (c.li.quantity = none → it.quantity = 1) ∧
    (c.li.quantity = some 0 → it.quantity = 1) ∧
    (∀ v : Int, c.li.quantity = some v → v ≠ 0 → it.quantity = v) := by
  have hq : it.quantity = jsQuantity c.li.quantity := by
    cases h1 : truthyStr c.bits.printJobId with
    | true =>
      simp only [kxItemsForCandidate, h1, if_true, List.mem_singleton] at hmem
      rw [hmem]
    | false =>
      cases h2 : hasUserFacingProps c.li with
      | false => simp [kxItemsForCandidate, h1, h2] at hmem
      | true =>
        simp only [kxItemsForCandidate, h1, h2, Bool.false_eq_true, if_false,
          if_true] at hmem
        by_cases h3 : 0 < (passthroughAttributes c.li c.bits.thumb).length
        · simp only [h3, if_true, List.mem_singleton] at hmem
          rw [hmem]
        · simp [h3] at hmem
  refine ⟨fun h => ?_, fun h => ?_, fun v h hv => ?_⟩
  · rw [hq, h]; rfl
  · rw [hq, h]; rfl
  · rw [hq, h]; simp [jsQuantity, hv]

/-- C7 (witness): the amended defaulting at the concrete quantity-0 line. -/
theorem c7_witness : itQty0.quantity = 1 :=
  (c7_quantity_default (some []) none candQty0 itQty0 (by decide)).2.1 rfl

/-- A property failing the `userFacing` test is skipped by the attribute
loop. -/
theorem ptStep_not_userFacing (acc : List LineProp × List String) (p : LineProp)
    (h : userFacing p = false) : ptStep acc p = acc := by
  simp only [ptStep]
  split_ifs with h1 h2 h3
  · rfl
  · rfl
  · rfl
  · exfalso
    simp only [Bool.or_eq_true, beq_iff_eq, not_or] at h1
    simp [userFacing, h1.1, h1.2, h2] at h

/-- The attribute loop never shrinks the accumulated attribute list. -/
theorem ptStep_fst_length_le (acc : List LineProp × List String)
    (p : LineProp) : acc.1.length ≤ (ptStep acc p).1.length := by
  simp only [ptStep]
  split_ifs <;> simp

/-- Folding the attribute loop never shrinks the accumulated list. -/
theorem foldl_ptStep_length_le (props : List LineProp)
    (acc : List LineProp × List String) :
    acc.1.length ≤ (props.foldl ptStep acc).1.length := by
  induction props generalizing acc with
  | nil => exact le_refl _
  | cons p rest ih =>
    rw [List.foldl_cons]
    exact le_trans (ptStep_fst_length_le acc p) (ih _)

/-- Starting from an accumulator whose two components have equal length (as
the empty one does), a user-facing property leaves the attribute list
non-empty: either it is appended, or its lowercase name was already seen, and
each seen name was appended with an attribute. -/
theorem foldl_ptStep_ne_nil (props : List LineProp)
    (acc : List LineProp × List String) (hlen : acc.1.length = acc.2.length)
    (hex : ∃ p ∈ props, userFacing p = true) :
    (props.foldl ptStep acc).1 ≠ [] := by
  induction props generalizing acc with
  | nil => simp at hex
  | cons p rest ih =>
    rw [List.foldl_cons]
    by_cases hg : userFacing p = true
    · have h1 : 1 ≤ (ptStep acc p).1.length := by
        simp only [ptStep]
        split_ifs with hA hB hC
        · exfalso
          simp only [Bool.or_eq_true, beq_iff_eq] at hA
          rcases hA with hA | hA <;> simp [userFacing, hA] at hg
        · exfalso; simp [userFacing, hB] at hg
        · have : acc.2 ≠ [] := by
            intro hnil; rw [hnil] at hC; simp at hC
          have : acc.2.length ≠ 0 := fun h0 => this (List.eq_nil_of_length_eq_zero h0)
          omega
        · simp
      have h2 := foldl_ptStep_length_le rest (ptStep acc p)
      intro hnil
      rw [hnil] at h2
      simp only [List.length_nil, Nat.le_zero] at h2
      omega
    · rw [ptStep_not_userFacing acc p (by simpa using hg)]
      apply ih acc hlen
      rcases hex with ⟨q, hq, hquf⟩
      rcases List.mem_cons.mp hq with rfl | hq'
      · exact absurd hquf hg
      · exact ⟨q, hq', hquf⟩

/-- A line with a user-facing property yields a non-empty passthrough
attribute list: the drop-after-filtering branch is unreachable. -/
theorem passthroughAttributes_ne_nil (li : LineItem) (thumb : Option String)
    (h : hasUserFacingProps li = true) :
    passthroughAttributes li thumb ≠ [] := by
  have hne := foldl_ptStep_ne_nil li.properties ([], []) rfl
    (by simpa [hasUserFacingProps, List.any_eq_true] using h)
  simp only [passthroughAttributes]
  split_ifs with hthumb
  · simp
  · exact hne

/-- C10: in the payload builder, a candidate without a truthy `printJobId`
whose line has at least one user-facing property (non-empty name not starting
with `_`, non-empty value) yields exactly one type-5 item carrying the
passthrough attributes, which are never empty — the drop-after-filtering case
is unreachable. -/
theorem c10_textual_item (skuMap : Option SkuMap) (dflt : Option Nat)
    (c : Candidate) (h1 : truthyStr c.bits.printJobId = false)
    (h2 : hasUserFacingProps c.li = true) :
    ∃ it, kxItemsForCandidate skuMap dflt c = [it] ∧ it.type = 5 ∧
      it.attributes = passthroughAttributes c.li c.bits.thumb ∧
      it.attributes ≠ [] := by
  have hne := passthroughAttributes_ne_nil c.li c.bits.thumb h2
  have hpos : 0 < (passthroughAttributes c.li c.bits.thumb).length :=
    List.length_pos.mpr hne
  simp only [kxItemsForCandidate, h1, h2, Bool.false_eq_true, if_false, if_true,
    hpos]
  exact ⟨_, rfl, rfl, rfl, hne⟩

/-- C10 (witness): the textual classification at a concrete candidate. -/
theorem c10_witness :
    ∃ it, kxItemsForCandidate (some []) none candText = [it] ∧ it.type = 5 ∧
      it.attributes = passthroughAttributes candText.li candText.bits.thumb ∧
      it.attributes ≠ [] :=
  c10_textual_item (some []) none candText rfl (by decide)

/-- C2 (counterexample): a personalised candidate whose SKU is null has the
normalized SKU `""`, which is absent from the (empty) resolved map; yet the
worker's missing-mapping check skips empty SKUs, so it submits to KornitX and
marks the order processed instead of failing before submission. -/
theorem c2_counterexample :
    skuLookup env0.skuToProductId (jsToLower (jsTrim (candPJ.li.sku.getD ""))) = none ∧
    truthyStr candPJ.bits.printJobId = true ∧
    candPJ ∈ msg0.candidates ∧
    processRecord js0 env0 msg0 =
      (.ok (), [.submitToKx, .markProcessed "shop" 1 "#1"]) := by
  refine ⟨rfl, rfl, ?_, rfl⟩
  exact List.mem_singleton.mpr rfl

/-- C2 (amended): when some personalised candidate has a NON-EMPTY normalized
SKU that is absent from the resolved map, the worker fails the whole message
with the missing-mapping error and performs no side effect at all — no
submission call, no ledger write. -/
theorem c2_missing_mapping_fails_before_submit {ε : Type} (js : JsPrims)
    (env : WorkerEnv ε) (msg : WorkerMsg) (c : Candidate)
    (hp : env.alreadyProcessed = false) (hc : env.clientFound = true)
    (hmem : c ∈ msg.candidates)
    (hpers : truthyStr c.bits.printJobId = true ∨ hasUserFacingProps c.li = true)
    (hsku : jsToLower (jsTrim (c.li.sku.getD "")) ≠ "")
    (hmiss : skuLookup env.skuToProductId (jsToLower (jsTrim (c.li.sku.getD ""))) = none) :
    (processRecord js env msg).1 = .error (.missingMapping (missingOf env msg)) ∧
    (processRecord js env msg).2 = [] := by
  have hcp : c ∈ personalisedOf msg := by
    apply List.mem_filter.mpr
    refine ⟨hmem, ?_⟩
    rcases hpers with h | h <;> simp [h]
  have hm : jsToLower (jsTrim (c.li.sku.getD "")) ∈ missingOf env msg := by
    apply List.mem_filter.mpr
    constructor
    · exact List.mem_map.mpr ⟨c, hcp, rfl⟩
    · simp [hsku, hmiss]
  have hpe : (personalisedOf msg).isEmpty = false := by
    rcases hh : personalisedOf msg with _ | ⟨x, xs⟩
    · rw [hh] at hcp; cases hcp
    · rfl
  have hme : (missingOf env msg).isEmpty = false := by
    rcases hh : missingOf env msg with _ | ⟨x, xs⟩
    · rw [hh] at hm; cases hm
    · rfl
  unfold processRecord
  rw [hp, hc, hpe, hme]
  exact ⟨rfl, rfl⟩

/-- C2 (witness): the amended fail-fast at a concrete unmapped non-empty
SKU. -/
theorem c2_witness :
    (processRecord js0 env0 msg2).1 = .error (.missingMapping (missingOf env0 msg2)) ∧
    (processRecord js0 env0 msg2).2 = [] :=
  c2_missing_mapping_fails_before_submit js0 env0 msg2 candPJsku rfl rfl
    (List.mem_singleton.mpr rfl) (Or.inl rfl) (by decide) rfl

/-- C3: whenever the retry-wrapped submission was actually attempted and its
final outcome is an error, the worker's result is that error (propagated for
redelivery) and no ledger write occurs: a redelivery retries from scratch. -/
theorem c3_submit_failure_no_ledger_write {ε : Type} (js : JsPrims)
    (env : WorkerEnv ε) (msg : WorkerMsg) (e : ε)
    (hs : env.submitResult = .error e)
    (hsub : WEffect.submitToKx ∈ (processRecord js env msg).2) :
    (processRecord js env msg).1 = .error (.submitFailed e) ∧
    ∀ d o x, WEffect.markProcessed d o x ∉ (processRecord js env msg).2 := by
  unfold processRecord at hsub ⊢
  split_ifs at hsub ⊢ with h1 h2 h3 h4 h5
  · simp at hsub
  · simp at hsub
  · simp at hsub
  · simp at hsub
  · simp at hsub
  · rw [hs] at hsub ⊢
    refine ⟨rfl, fun d o x => ?_⟩
    simp

/-- C3 (witness): error propagation and no ledger write at a concrete failing
submission. -/
theorem c3_witness :
    (processRecord js0 envFail msg2).1 = .error (.submitFailed ()) :=
  (c3_submit_failure_no_ledger_write js0 envFail msg2 () rfl (by decide)).1

/-- A Boolean that is not true is false. -/
theorem bool_eq_false {b : Bool} (h : ¬b = true) : b = false := by
  cases b
  · rfl
  · exact absurd rfl h

/-- Reading a cons cell of a JS-object association list. -/
theorem kvGet_cons (q : String × String) (m : KV) (l : String) :
    kvGet (q :: m) l = if q.1 == l then some q.2 else kvGet m l := by
  cases h : q.1 == l <;> simp [kvGet, List.find?_cons, h]

/-- The in-place update of `kvSet` leaves reads of other keys unchanged. -/
theorem kvGet_map_ne (m : KV) (k v l : String) (hne : l ≠ k) :
    kvGet (m.map (fun p => if p.1 == k then (k, v) else p)) l = kvGet m l := by
  induction m with
  | nil => rfl
  | cons q rest ih =>
    by_cases hq : q.1 = k
    · have hb : (q.1 == k) = true := beq_iff_eq.mpr hq
      have hkl : ¬((k : String) == l) = true := by
        rw [beq_iff_eq]; exact fun h => hne h.symm
      have hql : ¬(q.1 == l) = true := by
        rw [hq, beq_iff_eq]; exact fun h => hne h.symm
      rw [List.map_cons, if_pos hb, kvGet_cons, kvGet_cons]
      dsimp only
      rw [if_neg hkl, if_neg hql]
      exact ih
    · have hb : ¬(q.1 == k) = true := by rw [beq_iff_eq]; exact hq
      rw [List.map_cons, if_neg hb, kvGet_cons, kvGet_cons]
      by_cases hql : (q.1 == l) = true
      · rw [if_pos hql, if_pos hql]
      · rw [if_neg hql, if_neg hql]
        exact ih

/-- When the key occurs in the object, `kvSet`'s in-place update is what a
read of that key returns. -/
theorem kvGet_map_self (m : KV) (k v : String)
    (h : m.any (fun p => p.1 == k) = true) :
    kvGet (m.map (fun p => if p.1 == k then (k, v) else p)) k = some v := by
  induction m with
  | nil => simp at h
  | cons q rest ih =>
    by_cases hq : (q.1 == k) = true
    · rw [List.map_cons, if_pos hq, kvGet_cons]
      dsimp only
      rw [if_pos (beq_iff_eq.mpr rfl)]
    · have hb : (q.1 == k) = false := bool_eq_false hq
      rw [List.map_cons, if_neg hq, kvGet_cons, if_neg hq]
      apply ih
      rw [List.any_cons, hb] at h
      simpa using h

/-- When the key does not occur, `kvSet` appends, and a read sees the appended
entry exactly at that key. -/
theorem kvGet_append_single (m : KV) (k v l : String)
    (h : m.any (fun p => p.1 == k) = false) :
    kvGet (m ++ [(k, v)]) l = if l = k then some v else kvGet m l := by
  induction m with
  | nil =>
    rw [List.nil_append, kvGet_cons]
    by_cases hl : l = k
    · simp [hl]
    · have hkl : ¬((k : String) == l) = true := by
        rw [beq_iff_eq]; exact fun hh => hl hh.symm
      rw [if_neg hkl, if_neg hl]
  | cons q rest ih =>
    have hqk : ¬(q.1 == k) = true := by
      intro hc
      rw [List.any_cons, hc] at h
      simp at h
    have hrest : rest.any (fun p => p.1 == k) = false := by
      rw [List.any_cons, bool_eq_false hqk] at h
      simpa using h
    rw [List.cons_append, kvGet_cons, kvGet_cons]
    by_cases hql : (q.1 == l) = true
    · have hlk : l ≠ k := by
        intro he
        rw [he] at hql
        exact hqk hql
      rw [if_pos hql, if_neg hlk, if_pos hql]
    · rw [if_neg hql, if_neg hql, ih hrest]

/-- `kvSet` read characterization: the assigned key reads the new value, every
other key is unchanged. -/
theorem kvGet_kvSet (m : KV) (k v l : String) :
    kvGet (kvSet m k v) l = if l = k then some v else kvGet m l := by
  unfold kvSet
  by_cases h : m.any (fun p => p.1 == k) = true
  · rw [if_pos h]
    by_cases hl : l = k
    · subst hl; rw [if_pos rfl]; exact kvGet_map_self m l v h
    · rw [if_neg hl]; exact kvGet_map_ne m k v l hl
  · rw [if_neg h]
    exact kvGet_append_single m k v l (Bool.not_eq_true _ |>.mp h)

/-- Looking up in the object built by folding last-wins lowercase-key
assignments equals taking the last entry whose lowered key matches (searching
the reversed list), with the initial accumulator as fallback. -/
theorem kvGet_lowerFold (kv : KV) (acc : KV) (l : String) :
    kvGet (kv.foldl (fun a p => kvSet a (jsToLower p.1) p.1) acc) l =
      match kv.reverse.find? (fun p => jsToLower p.1 == l) with
      | some q => some q.1
      | none => kvGet acc l := by
  induction kv generalizing acc with
  | nil => simp
  | cons p rest ih =>
    rw [List.foldl_cons, ih (kvSet acc (jsToLower p.1) p.1)]
    rw [List.reverse_cons, List.find?_append]
    cases hf : rest.reverse.find? (fun q => jsToLower q.1 == l) with
    | some q => simp [hf]
    | none =>
      simp only [hf, Option.none_orElse]
      rw [kvGet_kvSet]
      cases hp : (jsToLower p.1 == l) with
      | true =>
        have : l = jsToLower p.1 := (beq_iff_eq.mp hp).symm
        simp [List.find?, hp, this]
      | false =>
        have : l ≠ jsToLower p.1 := fun he => by
          rw [beq_iff_eq.mpr he.symm] at hp
          cases hp
        simp [List.find?, hp, this]

/-- `lowerToReal` read characterization: the last key of the object whose
lowercase form matches. -/
theorem kvGet_lowerToReal (kv : KV) (l : String) :
    kvGet (lowerToReal kv) l =
      (kv.reverse.find? (fun p => jsToLower p.1 == l)).map (·.1) := by
  unfold lowerToReal
  rw [kvGet_lowerFold]
  cases kv.reverse.find? (fun p => jsToLower p.1 == l) <;> simp [kvGet]

/-- The candidate loop of `findFirstKey` computes `firstAliasValue`. -/
theorem findFirstLoop_eq (obj : KV) (cands : List String) :
    findFirstLoop obj (lowerToReal obj) cands = firstAliasValue obj cands := by
  induction cands with
  | nil => rfl
  | cons c rest ih =>
    unfold findFirstLoop firstAliasValue
    rw [kvGet_lowerToReal, List.findSome?_cons]
    cases hf : obj.reverse.find? (fun p => jsToLower p.1 == jsToLower c) with
    | none => simp [hf, ih, firstAliasValue]
    | some q =>
      by_cases hq : (q.1 != "") = true
      · have hq' : q.1 ≠ "" := by simpa using hq
        cases hv : kvGet obj q.1 with
        | none => simp [hf, hq, hq', hv, ih, firstAliasValue]
        | some v =>
          by_cases hv2 : (v != "") = true
          · have hv2' : v ≠ "" := by simpa using hv2
            simp [hf, hq, hq', hv, hv2, hv2']
          · have hv2' : v = "" := by simpa using hv2
            simp [hf, hq, hq', hv, hv2, hv2', ih, firstAliasValue]
      · have hq' : q.1 = "" := by simpa using hq
        simp [hf, hq, hq', ih, firstAliasValue]

/-- `findFirstKey` equals the declarative first-alias search. -/
theorem findFirstKey_eq_firstAliasValue (obj : KV) (cands : List String) :
    findFirstKey obj cands = firstAliasValue obj cands := by
  unfold findFirstKey
  by_cases h : cands.isEmpty
  · rw [if_pos h]
    rcases cands with _ | ⟨c, rest⟩
    · rfl
    · cases h
  · rw [if_neg h]
    exact findFirstLoop_eq obj cands

/-- C8: each design-text slot of `getDesignBits` resolves to the first
configured alias (scanned in the configured order) that case-insensitively
matches a property of the object holding a non-empty value — precisely, the
last property whose lowered name equals the lowered alias, with non-empty name
and non-empty value — and when the alias list is empty or no alias matches,
the slot falls back to reading the one fixed default property name
(`Top line`, `Middle line`, `Bottom line`). -/
theorem c8_slot_resolution (obj : KV) (cfg : KeyCfg) :
    (getDesignBits obj cfg).top =
      ((firstAliasValue obj cfg.topKeys).orElse fun _ => kvGet obj "Top line") ∧
    (getDesignBits obj cfg).middle =
      ((firstAliasValue obj cfg.middleKeys).orElse fun _ => kvGet obj "Middle line") ∧
    (getDesignBits obj cfg).bottom =
      ((firstAliasValue obj cfg.bottomKeys).orElse fun _ => kvGet obj "Bottom line") := by
  unfold getDesignBits
  rw [findFirstKey_eq_firstAliasValue, findFirstKey_eq_firstAliasValue,
    findFirstKey_eq_firstAliasValue]
  exact ⟨rfl, rfl, rfl⟩

/-- The retry loop makes at most as many calls as it has attempts left. -/
theorem withRetryFrom_calls_le {ε α : Type} (fn : Nat → Except ε α)
    (b m : Nat) : ∀ r a, (withRetryFrom fn b m a r).1 ≤ r := by
  intro r
  induction r with
  | zero => intro a; simp [withRetryFrom]
  | succ n ih =>
    intro a
    unfold withRetryFrom
    cases hf : fn a with
    | ok v => simp
    | error e =>
      by_cases hn : n = 0
      · simp [hn]
      · simp only [hn, if_false]
        have := ih (a + 1)
        omega

/-- When every remaining attempt fails, the loop makes exactly `r` calls,
records `r - 1` delays, and rethrows the error of the final attempt. -/
theorem withRetryFrom_all_fail {ε α : Type} (fn : Nat → Except ε α)
    (b m : Nat) : ∀ r a, 1 ≤ r →
    (∀ k, a ≤ k → k < a + r → ∃ e, fn k = .error e) →
    (withRetryFrom fn b m a r).1 = r ∧
    (withRetryFrom fn b m a r).2.1.length = r - 1 ∧
    ∃ e, fn (a + r - 1) = .error e ∧
      (withRetryFrom fn b m a r).2.2 = .error (some e) := by
  intro r
  induction r with
  | zero => intro a h; omega
  | succ n ih =>
    intro a _ hall
    obtain ⟨e, he⟩ := hall a (le_refl a) (by omega)
    unfold withRetryFrom
    rw [he]
    by_cases hn : n = 0
    · subst hn
      refine ⟨rfl, rfl, e, ?_, rfl⟩
      simpa using he
    · have ihh := ih (a + 1) (by omega) (fun k hk1 hk2 => hall k (by omega) (by omega))
      simp only [hn, if_false]
      refine ⟨?_, ?_, ?_⟩
      · have := ihh.1
        omega
      · rw [List.length_cons]
        have := ihh.2.1
        omega
      · obtain ⟨em, hem, hres⟩ := ihh.2.2
        refine ⟨em, ?_, hres⟩
        have harith : a + (n + 1) - 1 = a + 1 + n - 1 := by omega
        rw [harith]
        exact hem

/-- When attempt `k` is the first to succeed, the loop makes exactly the calls
up to `k` and returns that result immediately. -/
theorem withRetryFrom_success {ε α : Type} (fn : Nat → Except ε α)
    (b m : Nat) : ∀ r a k v, a ≤ k → k < a + r → fn k = .ok v →
    (∀ j, a ≤ j → j < k → ∃ e, fn j = .error e) →
    (withRetryFrom fn b m a r).1 = k - a + 1 ∧
    (withRetryFrom fn b m a r).2.2 = .ok v := by
  intro r
  induction r with
  | zero => intro a k v h1 h2 _ _; omega
  | succ n ih =>
    intro a k v hak hk hfk hprev
    by_cases hka : k = a
    · subst hka
      unfold withRetryFrom
      rw [hfk]
      simp
    · have hlt : a < k := lt_of_le_of_ne hak fun h => hka h.symm
      obtain ⟨e, he⟩ := hprev a (le_refl a) hlt
      unfold withRetryFrom
      rw [he]
      have hn : ¬n = 0 := by omega
      simp only [hn, if_false]
      have ihh := ih (a + 1) k v (by omega) (by omega) hfk
        (fun j hj1 hj2 => hprev j (by omega) hj2)
      refine ⟨?_, ihh.2⟩
      have := ihh.1
      omega

/-- Every recorded pre-jitter delay follows the capped exponential schedule
(the `i`-th recorded delay, 0-based, belongs to attempt `a + i`). -/
theorem withRetryFrom_delays {ε α : Type} (fn : Nat → Except ε α)
    (b m : Nat) : ∀ r a i, 1 ≤ a →
    i < (withRetryFrom fn b m a r).2.1.length →
    (withRetryFrom fn b m a r).2.1.get? i =
      some (min m (b * 2 ^ (a - 1 + i))) := by
  intro r
  induction r with
  | zero => intro a i _ h; simp [withRetryFrom] at h
  | succ n ih =>
    intro a i ha hi
    unfold withRetryFrom at hi ⊢
    cases hf : fn a with
    | ok v =>
      rw [hf] at hi
      simp at hi
    | error e =>
      rw [hf] at hi
      dsimp only at hi ⊢
      by_cases hn : n = 0
      · rw [if_pos hn] at hi
        simp at hi
      · rw [if_neg hn] at hi ⊢
        cases i with
        | zero =>
          have harith : a - 1 + 0 = a - 1 := by omega
          rw [harith]
          rfl
        | succ j =>
          rw [List.length_cons] at hi
          have hj : j < (withRetryFrom fn b m (a + 1) n).2.1.length := by omega
          have hrec := ih (a + 1) j (by omega) hj
          have harith : a - 1 + (j + 1) = a + 1 - 1 + j := by omega
          rw [harith, List.get?_cons_succ]
          exact hrec

/-- C6: the retry executor calls the operation at most `attempts` times; when
every attempt fails it makes exactly `attempts` calls, records `attempts - 1`
delays and rethrows the last error; when attempt `k` is the first to succeed
it makes exactly `k` calls and returns that result; and the `i`-th recorded
pre-jitter backoff (0-based, i.e. before the `(i+1)`-th retry) is
`min maxMs (baseMs * 2 ^ i)`. -/
theorem c6_retry_executor {ε α : Type} (fn : Nat → Except ε α)
    (attempts baseMs maxMs : Nat) (hatt : 1 ≤ attempts) :
    (withRetry fn attempts baseMs maxMs).1 ≤ attempts ∧
    ((∀ k, 1 ≤ k → k ≤ attempts → ∃ e, fn k = .error e) →
      (withRetry fn attempts baseMs maxMs).1 = attempts ∧
      (withRetry fn attempts baseMs maxMs).2.1.length = attempts - 1 ∧
      ∃ e, fn attempts = .error e ∧
        (withRetry fn attempts baseMs maxMs).2.2 = .error (some e)) ∧
    (∀ k v, 1 ≤ k → k ≤ attempts → fn k = .ok v →
      (∀ j, 1 ≤ j → j < k → ∃ e, fn j = .error e) →
      (withRetry fn attempts baseMs maxMs).1 = k ∧
      (withRetry fn attempts baseMs maxMs).2.2 = .ok v) ∧
    (∀ i, i < (withRetry fn attempts baseMs maxMs).2.1.length →
      (withRetry fn attempts baseMs maxMs).2.1.get? i =
        some (min maxMs (baseMs * 2 ^ i))) := by
  refine ⟨withRetryFrom_calls_le fn baseMs maxMs attempts 1,
    fun hall => ?_, fun k v hk1 hk2 hfk hprev => ?_, fun i hi => ?_⟩
  · have h := withRetryFrom_all_fail fn baseMs maxMs attempts 1 hatt
      (fun k hk1 hk2 => hall k hk1 (by omega))
    refine ⟨h.1, h.2.1, ?_⟩
    have harith : 1 + attempts - 1 = attempts := by omega
    rw [harith] at h
    exact h.2.2
  · have h := withRetryFrom_success fn baseMs maxMs attempts 1 k v hk1 (by omega)
      hfk (fun j hj1 hj2 => hprev j hj1 hj2)
    refine ⟨?_, h.2⟩
    show (withRetryFrom fn baseMs maxMs 1 attempts).1 = k
    have := h.1
    omega
  · have h := withRetryFrom_delays fn baseMs maxMs attempts 1 i (le_refl 1) hi
    simpa using h

/-- C6 (witness): with an always-failing operation and 3 attempts, exactly 3
calls, 2 recorded delays, and the last error is rethrown; the recorded
backoffs are 1000 and 2000. -/
theorem c6_witness :
    (withRetry fnFailN 3 1000 8000).1 = 3 ∧
    (withRetry fnFailN 3 1000 8000).2.1.length = 2 ∧
    (withRetry fnFailN 3 1000 8000).2.2 = .error (some 3) ∧
    (withRetry fnFailN 3 1000 8000).2.1.get? 0 = some 1000 ∧
    (withRetry fnFailN 3 1000 8000).2.1.get? 1 = some 2000 := by
  have h := c6_retry_executor fnFailN 3 1000 8000 (by decide)
  have hall := h.2.1 (fun k _ _ => ⟨k, rfl⟩)
  obtain ⟨e, he, hres⟩ := hall.2.2
  have he3 : e = 3 := by
    simp [fnFailN] at he
    exact he.symm
  refine ⟨hall.1, hall.2.1, ?_, ?_, ?_⟩
  · rw [hres, he3]
  · have := h.2.2.2 0 (by rw [hall.2.1]; omega)
    simpa using this
  · have := h.2.2.2 1 (by rw [hall.2.1]; omega)
    simpa using this

end IvcKx